import Mathlib

/-!
Shallow embedding of the property-app backend (`src/index.js`), an Express
server exposing CRUD routes over a "properties" resource stored in an
external service (Supabase).  Each route handler is translated into a pure
Lean function.  The external service's state is an explicit `List Property`
(the `properties` table); outcomes of external calls that do not depend on
that state (storage uploads, transport failures, the id assigned on insert,
the clock) are passed in as parameters.
-/

/-- JavaScript-style numeric field value: a column can hold `null`
(JS `null`), `NaN` (result of a failed parse), or an actual number. -/
inductive JsNum (α : Type) where
  | null
  | nan
  | val (a : α)
deriving DecidableEq, Repr

/-- A row of the `properties` table.  `id` and `user_id` are the opaque
identifiers Supabase uses (UUID strings).  `title` is nullable, `price` an
integer column, `lat`/`lng` floating-point columns (modelled as exact
rationals), `image_url` a text column. -/
structure Property where
  id : String
  user_id : String
  title : Option String
  price : JsNum Int
  image_url : String
  lat : JsNum Rat
  lng : JsNum Rat
deriving DecidableEq, Repr

/-- The identity resolved by `supabase.auth.getUser`; the handlers only read
its `id` field (`req.user.id`). -/
structure User where
  id : String
deriving DecidableEq, Repr

/-- Response bodies the handlers produce: `{error}`, `{message}`, a single
property record, a list of records (the list route), `{message, property}`
(the create route), or an empty body (`res.json(undefined)`). -/
inductive RespBody where
  | err (msg : String)
  | message (m : String)
  | prop (p : Property)
  | props (l : List Property)
  | added (m : String) (p : Property)
  | empty
deriving DecidableEq, Repr

/-- Result of running one handler: HTTP status, JSON body, the resulting
`properties` table, and whether a write call (insert/update/delete) was
issued against the `properties` table. -/
structure HResult where
  status : Nat
  body : RespBody
  db : List Property
  dbWrite : Bool
deriving DecidableEq, Repr

/-! ### JavaScript primitives used by the handlers -/

/-- JS truthiness of an optional string field (`undefined` and `""` are
falsy; every other string — including `"0"` — is truthy). -/
def jsTruthyStr : Option String → Bool
  | none => false
  | some s => s ≠ ""

/-- Decimal value of a list of digit characters, most significant first
(the accumulator fold a decimal parser performs). -/
def digitsToNat (cs : List Char) : Nat :=
  cs.foldl (fun a c => 10 * a + (c.toNat - 48)) 0

/-- The whitespace characters JS number parsing skips (the ones that can
occur in form data). -/
def jsWhitespace (c : Char) : Bool :=
  c == Char.ofNat 32 || c == Char.ofNat 9 || c == Char.ofNat 10 ||
    c == Char.ofNat 13

/-- JS `String.prototype.split` with a one-character separator: splitting
never yields the empty list (`"".split(sep)` is `[""]`), empty pieces
between adjacent separators are kept. -/
def splitChar (sep : Char) : List Char → List (List Char)
  | [] => [[]]
  | c :: t =>
    let r := splitChar sep t
    if c = sep then [] :: r
    else
      match r with
      | [] => [[c]]
      | h :: t2 => (c :: h) :: t2

/-- JS `parseInt(s)` on base-10 input: skip surrounding whitespace, an
optional sign, then the longest digit run; `NaN` if there is none.
(The hexadecimal `0x` auto-radix and JS's leading-only trim are not
exercised by this codebase and are not modelled.) -/
def parseIntJS (s : String) : JsNum Int :=
  let cs := s.data.dropWhile jsWhitespace
  let sign : Int := match cs with
    | c :: _ => if c = Char.ofNat 45 then -1 else 1
    | [] => 1
  let rest : List Char := match cs with
    | c :: t => if c = Char.ofNat 45 ∨ c = Char.ofNat 43 then t else cs
    | [] => cs
  let ds := rest.takeWhile Char.isDigit
  if ds.isEmpty then JsNum.nan else JsNum.val (sign * (digitsToNat ds : Int))

/-- JS `parseFloat(s)` on plain decimal input: optional sign, integer
digits, optional fractional digits; `NaN` when no digit is found.  IEEE
doubles are abstracted as exact rationals (faithful for the short decimal
strings this API receives); exponent notation is not modelled. -/
def parseFloatJS (s : String) : JsNum Rat :=
  let cs := s.data.dropWhile jsWhitespace
  let neg : Bool := match cs with
    | c :: _ => c == Char.ofNat 45
    | [] => false
  let rest : List Char := match cs with
    | c :: t => if c = Char.ofNat 45 ∨ c = Char.ofNat 43 then t else cs
    | [] => cs
  let intDs := rest.takeWhile Char.isDigit
  let rest2 := rest.drop intDs.length
  let fracDs : List Char := match rest2 with
    | c :: t => if c = Char.ofNat 46 then t.takeWhile Char.isDigit else []
    | [] => []
  let mag : Int := digitsToNat intDs * 10 ^ fracDs.length + digitsToNat fracDs
  if intDs.isEmpty ∧ fracDs.isEmpty then JsNum.nan
  else JsNum.val (mkRat (if neg then -mag else mag) (10 ^ fracDs.length))

/-! ### Supabase query semantics -/

/-- Rows selected by `.eq("id", id)`. -/
def rowsFor (db : List Property) (id : String) : List Property :=
  db.filter (fun r => r.id = id)

/-- Semantics of `.eq("id", id).single()`: succeeds exactly when one row matches;
zero or several matches produce an error (`none`). -/
def singleRow (db : List Property) (id : String) : Option Property :=
  match rowsFor db id with
  | [p] => some p
  | _ => none

/-! ### Authentication middleware (`authenticate`, src/index.js:87-102) -/

/-- Outcome of `await supabase.auth.getUser(token)`: the call can throw, or
return `{data, error}` with `error` possibly set and `data.user` possibly
absent. -/
inductive AuthOutcome where
  | throws
  | ret (error : Bool) (user : Option User)

/-- Token extraction `authHeader.split(" ")[1]`: the second space-separated piece of the
header, `undefined` (`none`) when the header has no space. -/
def headerToken (h : String) : Option String :=
  ((splitChar (Char.ofNat 32) h.data).get? 1).map List.asString

/-- The `authenticate` middleware: 401 when the header is absent or falsy,
when `getUser` throws, or when it reports an error or no user; otherwise
the resolved user is handed to the next handler. -/
def authenticate (header : Option String)
    (getUser : Option String → AuthOutcome) : Except (Nat × String) User :=
  match header with
  | none => Except.error (401, "No token provided")
  | some h =>
    if h = "" then Except.error (401, "No token provided")
    else
      match getUser (headerToken h) with
      | AuthOutcome.throws => Except.error (401, "Unauthorized")
      | AuthOutcome.ret e u? =>
        if e then Except.error (401, "Invalid token")
        else
          match u? with
          | none => Except.error (401, "Invalid token")
          | some u => Except.ok u

/-- What `authenticate` does with the resolution outcome alone — the tail
of the middleware after the token has been extracted.  Everything about the
header other than its second space-separated piece is ignored. -/
def tokenAuth (o : AuthOutcome) : Except (Nat × String) User :=
  match o with
  | AuthOutcome.throws => Except.error (401, "Unauthorized")
  | AuthOutcome.ret e u? =>
    if e then Except.error (401, "Invalid token")
    else
      match u? with
      | none => Except.error (401, "Invalid token")
      | some u => Except.ok u

/-- The user `getUser` resolves, when it neither throws nor errors. -/
def resolves : AuthOutcome → Option User
  | AuthOutcome.ret false (some u) => some u
  | _ => none

/-- Result of a guarded route: as `HResult`, plus whether the downstream
handler was invoked at all. -/
structure GuardResult where
  status : Nat
  body : RespBody
  db : List Property
  handlerRan : Bool
  dbWrite : Bool
deriving DecidableEq, Repr

/-- A route protected by `authenticate`: on auth failure the middleware
responds itself and the handler never runs; on success the handler runs
with the resolved identity attached. -/
def runGuarded (header : Option String)
    (getUser : Option String → AuthOutcome) (db : List Property)
    (handler : User → HResult) : GuardResult :=
  match authenticate header getUser with
  | Except.error (s, m) => ⟨s, RespBody.err m, db, false, false⟩
  | Except.ok u =>
    let r := handler u
    ⟨r.status, r.body, r.db, true, r.dbWrite⟩

/-! ### Create handler (`app.post("/api/properties")`, src/index.js:104-163) -/

/-- Multipart form fields of a create request.  The handler destructures
only `title`, `price`, `lat`, `lng`; a `user_id` field a client may send is
never read. -/
structure CreateBody where
  title : Option String
  price : Option String
  lat : Option String
  lng : Option String
  user_id : Option String
deriving DecidableEq, Repr

/-- The uploaded file as multer presents it (`req.file`). -/
structure ReqFile where
  originalname : String
  mimetype : String
  buffer : List Nat
deriving DecidableEq, Repr

/-- Outcomes of the external calls the create handler makes, fixed per
request: the clock (`Date.now()`), the storage upload result, the insert
result, the id the table assigns, and the project URL public URLs are
built from. -/
structure CreateEnv where
  now : Nat
  uploadErr : Option String
  insertErr : Option String
  newId : String
  storageBase : String
deriving DecidableEq, Repr

/-- Extension extraction `req.file.originalname.split(".").pop()`: the part after the last dot
(the whole name when there is no dot). -/
def fileExt (name : String) : String :=
  List.asString ((splitChar (Char.ofNat 46) name.data).getLastD [])

/-- The filename template of the upload step: the current timestamp, a dot,
and the original file's extension. -/
def mkFileName (now : Nat) (ext : String) : String :=
  Nat.repr now ++ "." ++ ext

/-- The URL `supabase.storage.from("property-images").getPublicUrl(path)`
returns. -/
def publicUrl (base path : String) : String :=
  base ++ "/storage/v1/object/public/property-images/" ++ path

/-- The `newProperty` object the handler assembles and hands to
`.insert([...])`, together with the id the table assigns (the inserted row
the trailing `.select()` returns). -/
def newPropertyRec (u : User) (body : CreateBody) (imageUrl : String)
    (newId : String) : Property :=
  { id := newId
    user_id := u.id
    title := body.title
    price := if jsTruthyStr body.price then parseIntJS (body.price.getD "")
             else JsNum.null
    image_url := imageUrl
    lat := if jsTruthyStr body.lat then parseFloatJS (body.lat.getD "")
           else JsNum.null
    lng := if jsTruthyStr body.lng then parseFloatJS (body.lng.getD "")
           else JsNum.null }

/-- Assembling `newProperty` and running the insert (the tail of the create
handler, after the image branch fixed `imageUrl`). -/
def finishCreate (u : User) (body : CreateBody) (imageUrl : String)
    (env : CreateEnv) (db : List Property) : HResult :=
  let newProperty : Property := newPropertyRec u body imageUrl env.newId
  match env.insertErr with
  | some m => ⟨500, RespBody.err m, db, true⟩
  | none =>
    ⟨200, RespBody.added "Property added" newProperty, db ++ [newProperty],
      true⟩

/-- The create handler: when a file is attached, build the timestamped
filename and upload first — a failing upload aborts the request with a
distinct 500 and no insert; otherwise insert the assembled record with the
authenticated user as owner. -/
def createProperty (u : User) (body : CreateBody) (file : Option ReqFile)
    (env : CreateEnv) (db : List Property) : HResult :=
  match file with
  | none => finishCreate u body "" env db
  | some f =>
    let filePath := "public/" ++ mkFileName env.now (fileExt f.originalname)
    match env.uploadErr with
    | some m => ⟨500, RespBody.err ("Image upload failed: " ++ m), db, false⟩
    | none => finishCreate u body (publicUrl env.storageBase filePath) env db

/-! ### List and get handlers (src/index.js:77-85, 166-175) -/

/-- The list handler `app.get("/api/properties")`: all rows, or 500 on an
external error. -/
def listProperties (db : List Property) (extErr : Option String) : HResult :=
  match extErr with
  | some m => ⟨500, RespBody.err m, db, false⟩
  | none => ⟨200, RespBody.props db, db, false⟩

/-- The get-one handler `app.get("/api/properties/:id")`: a `.single()`
select; ANY error —
zero matches, several matches, or a transport failure (`extErr`) — is
mapped to `404 {error: "Property not found"}`. -/
def getProperty (db : List Property) (id : String) (extErr : Bool) : HResult :=
  match (if extErr then none else singleRow db id) with
  | none => ⟨404, RespBody.err "Property not found", db, false⟩
  | some p => ⟨200, RespBody.prop p, db, false⟩

/-! ### Update handler (`app.put("/api/properties/:id")`, src/index.js:178-191) -/

/-- The PATCH payload `{title, price}` built from the JSON body:
`none` = the key was `undefined` and is dropped by serialization (column
untouched); `some v` = the key is sent and the column is set to `v`
(`some none` sets `title` to SQL NULL). -/
def applyTitlePrice (t : Option (Option String)) (p : Option (JsNum Int))
    (r : Property) : Property :=
  { r with title := t.getD r.title, price := p.getD r.price }

/-- The update handler: no ownership check — the PATCH is issued directly
on the id; on an external error respond 500 with the decorated message;
otherwise respond with the first updated row (`data[0]`), which is an
empty body when no row matched. -/
def updateProperty (u : User) (id : String) (bodyTitle : Option (Option String))
    (bodyPrice : Option (JsNum Int)) (updErr : Option String)
    (db : List Property) : HResult :=
  match updErr with
  | some m => ⟨500, RespBody.err ("ERROR::::" ++ m), db, true⟩
  | none =>
    let db2 := db.map fun r =>
      if r.id = id then applyTitlePrice bodyTitle bodyPrice r else r
    match (rowsFor db id).map (applyTitlePrice bodyTitle bodyPrice) with
    | [] => ⟨200, RespBody.empty, db2, true⟩
    | r :: _ => ⟨200, RespBody.prop r, db2, true⟩

/-! ### Delete handler (`app.delete("/api/properties/:id")`, src/index.js:193-220) -/

/-- The delete handler: look up the row's owner with a `.single()` select
(`findErr` injects a transport failure there); 404 when that fails, 403
when the owner is not the authenticated user, and only then issue the
delete, answering with a confirmation message. -/
def deleteProperty (u : User) (id : String) (findErr : Bool)
    (delErr : Option String) (db : List Property) : HResult :=
  match (if findErr then none else singleRow db id) with
  | none => ⟨404, RespBody.err "Property not found", db, false⟩
  | some existing =>
    if existing.user_id ≠ u.id then
      ⟨403, RespBody.err "Not authorized to delete this property", db, false⟩
    else
      match delErr with
      | some m => ⟨500, RespBody.err m, db, true⟩
      | none =>
        ⟨200, RespBody.message "Property deleted",
          db.filter (fun r => r.id ≠ id), true⟩

/-! ### Sample data used by the witness theorems -/

/-- A concrete stored row, owned by user `"A"`. -/
def pEx : Property :=
  { id := "1", user_id := "A", title := some "t", price := JsNum.val 5,
    image_url := "", lat := JsNum.null, lng := JsNum.null }

/-- The create-request body of the spec's worked example. -/
def bodyEx : CreateBody :=
  { title := some "Lake House", price := some "250000", lat := some "47.6",
    lng := some "-122.3", user_id := none }

/-- A create-request environment where every external call succeeds. -/
def envEx : CreateEnv :=
  { now := 1712, uploadErr := none, insertErr := none, newId := "7",
    storageBase := "https://proj.supabase.co" }

/-- A concrete uploaded file. -/
def fEx : ReqFile :=
  { originalname := "photo.jpg", mimetype := "image/jpeg", buffer := [1, 2] }

/-! ### Decimal-representation facts

`Date.now()` is rendered with JS number-to-string conversion, modelled by
`Nat.repr`.  The filename-distinctness argument needs that this rendering
consists of digit characters (hence contains no dot) and is injective. -/

theorem digitChar_isDigit (m : Nat) (h : m < 10) :
    (Nat.digitChar m).isDigit = true := by
  interval_cases m <;> decide

theorem digitChar_toNat (m : Nat) (h : m < 10) :
    (Nat.digitChar m).toNat - 48 = m := by
  interval_cases m <;> decide

theorem toDigitsCore_isDigit (fuel : Nat) :
    ∀ (n : Nat) (ds : List Char), ∀ c ∈ Nat.toDigitsCore 10 fuel n ds,
      c.isDigit = true ∨ c ∈ ds := by
  induction fuel with
  | zero =>
    intro n ds c hc
    exact Or.inr hc
  | succ f ih =>
    intro n ds c hc
    simp only [Nat.toDigitsCore] at hc
    by_cases hdiv : n / 10 = 0
    · rw [if_pos hdiv] at hc
      rcases List.mem_cons.mp hc with h1 | h1
      · exact Or.inl (h1 ▸ digitChar_isDigit _ (Nat.mod_lt _ (by decide)))
      · exact Or.inr h1
    · rw [if_neg hdiv] at hc
      rcases ih (n / 10) (Nat.digitChar (n % 10) :: ds) c hc with h1 | h1
      · exact Or.inl h1
      · rcases List.mem_cons.mp h1 with h2 | h2
        · exact Or.inl (h2 ▸ digitChar_isDigit _ (Nat.mod_lt _ (by decide)))
        · exact Or.inr h2

theorem repr_data_isDigit (n : Nat) :
    ∀ c ∈ (Nat.repr n).data, c.isDigit = true := by
  intro c hc
  have hc2 : c ∈ Nat.toDigitsCore 10 (n + 1) n [] := hc
  rcases toDigitsCore_isDigit (n + 1) n [] c hc2 with h | h
  · exact h
  · cases h

theorem repr_no_dot (n : Nat) : ('.' : Char) ∉ (Nat.repr n).data := by
  intro h
  have hd := repr_data_isDigit n _ h
  exact absurd hd (by decide)

theorem toDigitsCore_foldl (fuel : Nat) :
    ∀ (n : Nat) (ds : List Char) (acc : Nat), n < fuel →
      ∃ m : Nat,
        (Nat.toDigitsCore 10 fuel n ds).foldl
            (fun a c => 10 * a + (c.toNat - 48)) acc
          = ds.foldl (fun a c => 10 * a + (c.toNat - 48)) (acc * m + n) := by
  induction fuel with
  | zero =>
    intro n ds acc h
    exact absurd h (Nat.not_lt_zero n)
  | succ f ih =>
    intro n ds acc h
    simp only [Nat.toDigitsCore]
    by_cases hdiv : n / 10 = 0
    · rw [if_pos hdiv]
      refine ⟨10, ?_⟩
      rw [List.foldl_cons]
      have hn : n < 10 := by omega
      have hd : (Nat.digitChar (n % 10)).toNat - 48 = n % 10 :=
        digitChar_toNat _ (Nat.mod_lt _ (by decide))
      have hmod : n % 10 = n := Nat.mod_eq_of_lt hn
      rw [hd, hmod, Nat.mul_comm 10 acc]
    · rw [if_neg hdiv]
      have hlt : n / 10 < f := by omega
      obtain ⟨m, hm⟩ := ih (n / 10) (Nat.digitChar (n % 10) :: ds) acc hlt
      refine ⟨m * 10, ?_⟩
      rw [hm, List.foldl_cons]
      have hd : (Nat.digitChar (n % 10)).toNat - 48 = n % 10 :=
        digitChar_toNat _ (Nat.mod_lt _ (by decide))
      rw [hd]
      have hsplit : 10 * (acc * m + n / 10) + n % 10 = acc * (m * 10) + n := by
        conv_rhs => rw [← Nat.div_add_mod n 10]
        ring
      rw [hsplit]

theorem digitsToNat_repr (n : Nat) : digitsToNat (Nat.repr n).data = n := by
  have h : (Nat.repr n).data = Nat.toDigitsCore 10 (n + 1) n [] := rfl
  obtain ⟨m, hm⟩ := toDigitsCore_foldl (n + 1) n [] 0 (Nat.lt_succ_self n)
  simp only [digitsToNat, h, hm, List.foldl_nil]
  omega

theorem repr_injective {a b : Nat} (h : Nat.repr a = Nat.repr b) : a = b := by
  have h2 := congrArg (fun s => digitsToNat (String.data s)) h
  simpa [digitsToNat_repr] using h2

theorem append_sep_inj (a₁ : List Char) :
    ∀ a₂ b₁ b₂ : List Char, ('.' : Char) ∉ a₁ → ('.' : Char) ∉ a₂ →
      a₁ ++ ('.' : Char) :: b₁ = a₂ ++ ('.' : Char) :: b₂ → a₁ = a₂ := by
  induction a₁ with
  | nil =>
    intro a₂ b₁ b₂ h1 h2 he
    cases a₂ with
    | nil => rfl
    | cons c t =>
      simp only [List.nil_append, List.cons_append, List.cons.injEq] at he
      obtain ⟨hc, -⟩ := he
      subst hc
      exact absurd (List.mem_cons_self _ _) h2
  | cons c t ih =>
    intro a₂ b₁ b₂ h1 h2 he
    cases a₂ with
    | nil =>
      simp only [List.cons_append, List.nil_append, List.cons.injEq] at he
      obtain ⟨hc, -⟩ := he
      subst hc
      exact absurd (List.mem_cons_self _ _) h1
    | cons d s =>
      simp only [List.cons_append, List.cons.injEq] at he
      obtain ⟨hcd, ht⟩ := he
      subst hcd
      have hr := ih s b₁ b₂ (fun hm => h1 (List.mem_cons_of_mem _ hm))
        (fun hm => h2 (List.mem_cons_of_mem _ hm)) ht
      rw [hr]

theorem mkFileName_inj {n₁ n₂ : Nat} {e₁ e₂ : String}
    (h : mkFileName n₁ e₁ = mkFileName n₂ e₂) : n₁ = n₂ := by
  have hd := congrArg String.data h
  simp only [mkFileName, String.data_append] at hd
  have hd2 : (Nat.repr n₁).data ++ ('.' : Char) :: e₁.data
      = (Nat.repr n₂).data ++ ('.' : Char) :: e₂.data := by
    simpa [List.append_assoc] using hd
  exact repr_injective
    (String.ext (append_sep_inj _ _ _ _ (repr_no_dot n₁) (repr_no_dot n₂) hd2))

theorem string_append_left_cancel {a b c : String} (h : a ++ b = a ++ c) :
    b = c := by
  have hd := congrArg String.data h
  simp only [String.data_append] at hd
  exact String.ext (List.append_cancel_left hd)

theorem publicUrl_ne_empty (base path : String) : publicUrl base path ≠ "" := by
  intro h
  have hl : (publicUrl base path).length = 0 := by rw [h]; rfl
  rw [publicUrl, String.length_append, String.length_append] at hl
  have hc : ("/storage/v1/object/public/property-images/" : String).length
      = 42 := rfl
  omega

theorem publicUrl_inj {base p₁ p₂ : String}
    (h : publicUrl base p₁ = publicUrl base p₂) : p₁ = p₂ := by
  rw [publicUrl, publicUrl, String.append_assoc, String.append_assoc] at h
  have h2 := string_append_left_cancel h
  exact string_append_left_cancel h2

/-! ### Structural lemmas about the create handler -/

theorem createProperty_success (u : User) (body : CreateBody)
    (file : Option ReqFile) (env : CreateEnv) (db : List Property)
    (hs : (createProperty u body file env db).status = 200) :
    ∃ url, createProperty u body file env db
      = ⟨200,
          RespBody.added "Property added" (newPropertyRec u body url env.newId),
          db ++ [newPropertyRec u body url env.newId], true⟩ := by
  cases file with
  | none =>
    cases hi : env.insertErr with
    | some m => simp [createProperty, finishCreate, hi] at hs
    | none => exact ⟨"", by simp [createProperty, finishCreate, hi]⟩
  | some f =>
    cases hup : env.uploadErr with
    | some m => simp [createProperty, hup] at hs
    | none =>
      cases hi : env.insertErr with
      | some m => simp [createProperty, finishCreate, hup, hi] at hs
      | none =>
        exact ⟨publicUrl env.storageBase
            ("public/" ++ mkFileName env.now (fileExt f.originalname)),
          by simp [createProperty, finishCreate, hup, hi]⟩

theorem createProperty_added (u : User) (body : CreateBody)
    (file : Option ReqFile) (env : CreateEnv) (db : List Property)
    (p : Property)
    (hb : (createProperty u body file env db).body
      = RespBody.added "Property added" p) :
    ∃ url, p = newPropertyRec u body url env.newId ∧
      ((file = none ∧ url = "") ∨
       (∃ f, file = some f ∧
          url = publicUrl env.storageBase
            ("public/" ++ mkFileName env.now (fileExt f.originalname)))) := by
  cases file with
  | none =>
    cases hi : env.insertErr with
    | some m => simp [createProperty, finishCreate, hi] at hb
    | none =>
      simp only [createProperty, finishCreate, hi] at hb
      simp only [RespBody.added.injEq, true_and] at hb
      exact ⟨"", hb.symm, Or.inl ⟨rfl, rfl⟩⟩
  | some f =>
    cases hup : env.uploadErr with
    | some m => simp [createProperty, hup] at hb
    | none =>
      cases hi : env.insertErr with
      | some m => simp [createProperty, finishCreate, hup, hi] at hb
      | none =>
        simp only [createProperty, finishCreate, hup, hi] at hb
        simp only [RespBody.added.injEq, true_and] at hb
        exact ⟨publicUrl env.storageBase
            ("public/" ++ mkFileName env.now (fileExt f.originalname)),
          hb.symm, Or.inr ⟨f, rfl, rfl⟩⟩

theorem truthyField_null {α : Type} (f : String → JsNum α) (v : Option String)
    (h : v = none ∨ v = some "") :
    (if jsTruthyStr v then f (v.getD "") else JsNum.null) = JsNum.null := by
  rcases h with h | h <;> subst h <;> simp [jsTruthyStr]

theorem truthyField_val {α : Type} (f : String → JsNum α) (s : String)
    (h : s ≠ "") :
    (if jsTruthyStr (some s) then f ((some s).getD "") else JsNum.null)
      = f s := by
  simp [jsTruthyStr, h]

/-- Claim C4: on every successful create request the stored and returned
record's `user_id` is the authenticated user's id, and the handler's result
does not depend on any `user_id` field a client puts in the request body. -/
theorem claim_C4 (u : User) (body : CreateBody) (file : Option ReqFile)
    (env : CreateEnv) (db : List Property) :
    ((createProperty u body file env db).status = 200 →
      ∃ p, (createProperty u body file env db).body
            = RespBody.added "Property added" p ∧
        p.user_id = u.id ∧
        (createProperty u body file env db).db = db ++ [p]) ∧
    (∀ v, createProperty u { body with user_id := v } file env db
        = createProperty u body file env db) := by
  constructor
  · intro hs
    obtain ⟨url, heq⟩ := createProperty_success u body file env db hs
    refine ⟨newPropertyRec u body url env.newId, ?_, rfl, ?_⟩
    · rw [heq]
    · rw [heq]
  · intro v
    obtain ⟨t, pr, la, ln, uid⟩ := body
    obtain ⟨now, upErr, insErr, nid, base⟩ := env
    cases file <;> cases upErr <;> cases insErr <;> rfl

/-- Claim C4 witness: creating with `bodyEx` (which carries no trusted
owner) as user `"U"` stores a record owned by `"U"`. -/
theorem claim_C4_witness :
    (∃ p, (createProperty ⟨"U"⟩ bodyEx none envEx []).body
          = RespBody.added "Property added" p ∧
      p.user_id = ("U" : String) ∧
      (createProperty ⟨"U"⟩ bodyEx none envEx []).db = [] ++ [p]) ∧
    createProperty ⟨"U"⟩ { bodyEx with user_id := some "EVIL" } none envEx []
      = createProperty ⟨"U"⟩ bodyEx none envEx [] := by
  have h := claim_C4 ⟨"U"⟩ bodyEx none envEx []
  exact ⟨h.1 rfl, h.2 (some "EVIL")⟩

/-- Claim C6: when a file is attached and the storage upload errors, the
create handler answers 500 with the distinct `"Image upload failed: "`
message, leaves the table unchanged, and issues no insert. -/
theorem claim_C6 (u : User) (body : CreateBody) (f : ReqFile)
    (env : CreateEnv) (db : List Property) (m : String)
    (h : env.uploadErr = some m) :
    createProperty u body (some f) env db
      = ⟨500, RespBody.err ("Image upload failed: " ++ m), db, false⟩ := by
  simp [createProperty, h]

/-- Claim C6 witness: a concrete failing upload. -/
theorem claim_C6_witness :
    createProperty ⟨"U"⟩ bodyEx (some fEx)
        { envEx with uploadErr := some "boom" } []
      = ⟨500, RespBody.err ("Image upload failed: " ++ "boom"), [], false⟩ :=
  claim_C6 ⟨"U"⟩ bodyEx fEx { envEx with uploadErr := some "boom" } [] "boom"
    rfl

/-- Claim C8: on every successful create request, `price` is parsed from
its textual form with `parseInt` and `lat`/`lng` with `parseFloat`, and a
field that is absent or empty in the form data is stored as an explicit
`null` rather than omitted. -/
theorem claim_C8 (u : User) (body : CreateBody) (file : Option ReqFile)
    (env : CreateEnv) (db : List Property)
    (hs : (createProperty u body file env db).status = 200) :
    ∃ p, (createProperty u body file env db).body
        = RespBody.added "Property added" p ∧
      ((body.price = none ∨ body.price = some "") → p.price = JsNum.null) ∧
      (∀ s, body.price = some s → s ≠ "" → p.price = parseIntJS s) ∧
      ((body.lat = none ∨ body.lat = some "") → p.lat = JsNum.null) ∧
      (∀ s, body.lat = some s → s ≠ "" → p.lat = parseFloatJS s) ∧
      ((body.lng = none ∨ body.lng = some "") → p.lng = JsNum.null) ∧
      (∀ s, body.lng = some s → s ≠ "" → p.lng = parseFloatJS s) ∧
      p.title = body.title := by
  obtain ⟨url, heq⟩ := createProperty_success u body file env db hs
  refine ⟨newPropertyRec u body url env.newId, by rw [heq], ?_, ?_, ?_, ?_,
    ?_, ?_, rfl⟩
  · intro h
    exact truthyField_null parseIntJS body.price h
  · intro s hsome hne
    have := truthyField_val parseIntJS s hne
    simp only [newPropertyRec, hsome]
    exact this
  · intro h
    exact truthyField_null parseFloatJS body.lat h
  · intro s hsome hne
    have := truthyField_val parseFloatJS s hne
    simp only [newPropertyRec, hsome]
    exact this
  · intro h
    exact truthyField_null parseFloatJS body.lng h
  · intro s hsome hne
    have := truthyField_val parseFloatJS s hne
    simp only [newPropertyRec, hsome]
    exact this

/-- Claim C8 witness: the spec's worked example — `price:"250000"`,
`lat:"47.6"`, `lng:"-122.3"` parse to 250000, 47.6 and -122.3. -/
theorem claim_C8_witness :
    (∃ p, (createProperty ⟨"U"⟩ bodyEx none envEx []).body
        = RespBody.added "Property added" p ∧
      p.price = parseIntJS "250000" ∧ p.lat = parseFloatJS "47.6" ∧
      p.lng = parseFloatJS "-122.3") ∧
    parseIntJS "250000" = JsNum.val 250000 ∧
    parseFloatJS "47.6" = JsNum.val (mkRat 476 10) ∧
    parseFloatJS "-122.3" = JsNum.val (mkRat (-1223) 10) := by
  obtain ⟨p, hb, h1, h2, h3, h4, h5, h6, h7⟩ :=
    claim_C8 ⟨"U"⟩ bodyEx none envEx [] rfl
  refine ⟨⟨p, hb, h2 "250000" rfl (by decide), h4 "47.6" rfl (by decide),
    h6 "-122.3" rfl (by decide)⟩, by decide, by decide, by decide⟩

/-- Claim C5: a successful create without a file stores and returns an
empty image URL; with a file the image URL is non-empty and built from the
timestamp-plus-original-extension filename, so two successful uploads at
different instants get distinct URLs (same storage project). -/
theorem claim_C5 :
    (∀ (u : User) (body : CreateBody) (env : CreateEnv) (db : List Property),
      env.insertErr = none →
      createProperty u body none env db
        = ⟨200,
            RespBody.added "Property added" (newPropertyRec u body "" env.newId),
            db ++ [newPropertyRec u body "" env.newId], true⟩ ∧
      (newPropertyRec u body "" env.newId).image_url = "") ∧
    (∀ (u : User) (body : CreateBody) (f : ReqFile) (env : CreateEnv)
        (db : List Property) (p : Property),
      (createProperty u body (some f) env db).body
          = RespBody.added "Property added" p →
      p.image_url = publicUrl env.storageBase
          ("public/" ++ mkFileName env.now (fileExt f.originalname)) ∧
      p.image_url ≠ "") ∧
    (∀ (u₁ u₂ : User) (body₁ body₂ : CreateBody) (f₁ f₂ : ReqFile)
        (env₁ env₂ : CreateEnv) (db₁ db₂ : List Property) (p₁ p₂ : Property),
      env₁.storageBase = env₂.storageBase → env₁.now ≠ env₂.now →
      (createProperty u₁ body₁ (some f₁) env₁ db₁).body
          = RespBody.added "Property added" p₁ →
      (createProperty u₂ body₂ (some f₂) env₂ db₂).body
          = RespBody.added "Property added" p₂ →
      p₁.image_url ≠ p₂.image_url) := by
  have hurl : ∀ (u : User) (body : CreateBody) (f : ReqFile) (env : CreateEnv)
      (db : List Property) (p : Property),
      (createProperty u body (some f) env db).body
          = RespBody.added "Property added" p →
      p.image_url = publicUrl env.storageBase
        ("public/" ++ mkFileName env.now (fileExt f.originalname)) := by
    intro u body f env db p hb
    obtain ⟨url, hp, hcases⟩ := createProperty_added u body (some f) env db p hb
    rcases hcases with ⟨hfile, -⟩ | ⟨f2, hf2, hu⟩
    · cases hfile
    · obtain rfl : f = f2 := by injection hf2
      rw [hp, hu]
      rfl
  refine ⟨?_, ?_, ?_⟩
  · intro u body env db hi
    exact ⟨by simp [createProperty, finishCreate, hi], rfl⟩
  · intro u body f env db p hb
    have h1 := hurl u body f env db p hb
    exact ⟨h1, h1 ▸ publicUrl_ne_empty _ _⟩
  · intro u₁ u₂ body₁ body₂ f₁ f₂ env₁ env₂ db₁ db₂ p₁ p₂ hbase hnow hb₁ hb₂
    intro heq
    rw [hurl u₁ body₁ f₁ env₁ db₁ p₁ hb₁, hurl u₂ body₂ f₂ env₂ db₂ p₂ hb₂,
      hbase] at heq
    have hq := publicUrl_inj heq
    have hf := string_append_left_cancel hq
    exact hnow (mkFileName_inj hf)

/-- Claim C5 witness: without a file the stored URL is `""`; with a file it
is non-empty, and bumping the clock by one changes it. -/
theorem claim_C5_witness :
    (newPropertyRec ⟨"U"⟩ bodyEx "" envEx.newId).image_url = "" ∧
    (newPropertyRec ⟨"U"⟩ bodyEx
        (publicUrl envEx.storageBase
          ("public/" ++ mkFileName envEx.now (fileExt fEx.originalname)))
        envEx.newId).image_url ≠ "" ∧
    (newPropertyRec ⟨"U"⟩ bodyEx
        (publicUrl envEx.storageBase
          ("public/" ++ mkFileName envEx.now (fileExt fEx.originalname)))
        envEx.newId).image_url
      ≠ (newPropertyRec ⟨"U"⟩ bodyEx
          (publicUrl envEx.storageBase
            ("public/" ++ mkFileName 1713 (fileExt fEx.originalname)))
          envEx.newId).image_url := by
  refine ⟨(claim_C5.1 ⟨"U"⟩ bodyEx envEx [] rfl).2, ?_, ?_⟩
  · exact (claim_C5.2.1 ⟨"U"⟩ bodyEx fEx envEx [] _ rfl).2
  · exact claim_C5.2.2 ⟨"U"⟩ ⟨"U"⟩ bodyEx bodyEx fEx fEx envEx
      { envEx with now := 1713 } [] [] _ _ rfl (by decide) rfl rfl

/-- Claim C1: the delete handler answers 404 when no row has the id (and
issues no delete), 403 when the row's owner is not the authenticated user
(row intact, no delete issued), and only with an existing row owned by the
caller does it delete, answering with the confirmation message rather than
the record. -/
theorem claim_C1 (u : User) (id : String) (db : List Property)
    (delErr : Option String) :
    (rowsFor db id = [] →
      ∀ fe, deleteProperty u id fe delErr db
        = ⟨404, RespBody.err "Property not found", db, false⟩) ∧
    (∀ p, rowsFor db id = [p] → p.user_id ≠ u.id →
      deleteProperty u id false delErr db
        = ⟨403, RespBody.err "Not authorized to delete this property", db,
            false⟩) ∧
    (∀ p, rowsFor db id = [p] → p.user_id = u.id → delErr = none →
      deleteProperty u id false delErr db
        = ⟨200, RespBody.message "Property deleted",
            db.filter (fun r => r.id ≠ id), true⟩) ∧
    (∀ fe, (deleteProperty u id fe delErr db).dbWrite = true →
      ∃ p, singleRow db id = some p ∧ p.user_id = u.id) := by
  refine ⟨?_, ?_, ?_, ?_⟩
  · intro h fe
    have hs : singleRow db id = none := by simp [singleRow, h]
    cases fe <;> simp [deleteProperty, hs]
  · intro p hp hne
    have hs : singleRow db id = some p := by simp [singleRow, hp]
    simp [deleteProperty, hs, hne]
  · intro p hp hown hdel
    have hs : singleRow db id = some p := by simp [singleRow, hp]
    subst hdel
    simp [deleteProperty, hs, hown]
  · intro fe hw
    cases fe with
    | true => simp [deleteProperty] at hw
    | false =>
      cases hs : singleRow db id with
      | none => simp [deleteProperty, hs] at hw
      | some p =>
        by_cases hown : p.user_id = u.id
        · exact ⟨p, rfl, hown⟩
        · simp [deleteProperty, hs, hown] at hw

/-- Claim C1 witness: with the table `[pEx]` (owner `"A"`), deleting id
`"9"` gives 404, deleting id `"1"` as `"B"` gives 403 leaving the row, and
deleting id `"1"` as the owner `"A"` removes it with a confirmation. -/
theorem claim_C1_witness :
    deleteProperty ⟨"A"⟩ "9" false none [pEx]
      = ⟨404, RespBody.err "Property not found", [pEx], false⟩ ∧
    deleteProperty ⟨"B"⟩ "1" false none [pEx]
      = ⟨403, RespBody.err "Not authorized to delete this property", [pEx],
          false⟩ ∧
    deleteProperty ⟨"A"⟩ "1" false none [pEx]
      = ⟨200, RespBody.message "Property deleted",
          List.filter (fun r => r.id ≠ "1") [pEx], true⟩ := by
  refine ⟨?_, ?_, ?_⟩
  · exact (claim_C1 ⟨"A"⟩ "9" [pEx] none).1 (by decide) false
  · exact (claim_C1 ⟨"B"⟩ "1" [pEx] none).2.1 pEx (by decide) (by decide)
  · exact (claim_C1 ⟨"A"⟩ "1" [pEx] none).2.2.1 pEx (by decide) (by decide) rfl

/-- Claim C2: the get-single handler answers
`404 {error: "Property not found"}` whenever the id does not resolve to
exactly one row (zero or several matches, or a failing call), returns the
single matching record otherwise, and never produces a 500 or a list. -/
theorem claim_C2 (db : List Property) (id : String) (extErr : Bool) :
    ((rowsFor db id).length ≠ 1 →
      getProperty db id extErr
        = ⟨404, RespBody.err "Property not found", db, false⟩) ∧
    (∀ p, rowsFor db id = [p] → extErr = false →
      getProperty db id extErr = ⟨200, RespBody.prop p, db, false⟩) ∧
    (getProperty db id extErr).status ≠ 500 ∧
    (∀ l, (getProperty db id extErr).body ≠ RespBody.props l) := by
  refine ⟨?_, ?_, ?_, ?_⟩
  · intro hlen
    have hs : singleRow db id = none := by
      unfold singleRow
      cases h : rowsFor db id with
      | nil => rfl
      | cons p t =>
        cases t with
        | nil => exact absurd (by rw [h]; rfl) hlen
        | cons q t2 => rfl
    cases extErr <;> simp [getProperty, hs]
  · intro p hp hfe
    subst hfe
    have hs : singleRow db id = some p := by simp [singleRow, hp]
    simp [getProperty, hs]
  · unfold getProperty
    cases (if extErr then none else singleRow db id) <;> simp
  · intro l
    unfold getProperty
    cases (if extErr then none else singleRow db id) <;> simp

/-- Claim C2 witness: with table `[pEx]`, an id with zero matches yields
the 404 body and the stored id yields the record. -/
theorem claim_C2_witness :
    getProperty [pEx] "9" false
      = ⟨404, RespBody.err "Property not found", [pEx], false⟩ ∧
    getProperty [pEx] "1" false = ⟨200, RespBody.prop pEx, [pEx], false⟩ := by
  refine ⟨?_, ?_⟩
  · exact (claim_C2 [pEx] "9" false).1 (by decide)
  · exact (claim_C2 [pEx] "1" false).2.1 pEx (by decide) rfl

/-! ### Structural lemmas about the update handler and the auth guard -/

theorem updateProperty_ok (u : User) (id : String) (t : Option (Option String))
    (p : Option (JsNum Int)) (db : List Property) :
    (updateProperty u id t p none db).status = 200 ∧
    (updateProperty u id t p none db).db
      = db.map (fun r => if r.id = id then applyTitlePrice t p r else r) := by
  cases hm : (rowsFor db id).map (applyTitlePrice t p) <;>
    simp [updateProperty, hm]

theorem rowsFor_nil_map_id (id : String) (t : Option (Option String))
    (p : Option (JsNum Int)) :
    ∀ db : List Property, rowsFor db id = [] →
      db.map (fun r => if r.id = id then applyTitlePrice t p r else r) = db := by
  intro db
  induction db with
  | nil => intro h; rfl
  | cons a tl ih =>
    intro h
    rw [rowsFor, List.filter_cons] at h
    by_cases ha : a.id = id
    · simp [ha] at h
    · simp only [ha, decide_False, if_false] at h
      have htl : rowsFor tl id = [] := h
      simp only [List.map_cons, if_neg ha]
      rw [ih htl]

theorem authenticate_some (h : String)
    (getUser : Option String → AuthOutcome) (hne : h ≠ "") :
    authenticate (some h) getUser = tokenAuth (getUser (headerToken h)) := by
  cases hg : getUser (headerToken h) with
  | throws => simp [authenticate, tokenAuth, hne, hg]
  | ret e u? => cases e <;> cases u? <;> simp [authenticate, tokenAuth, hne, hg]

/-- Claim C7: an update (with both fields in the body) succeeds, is never
forbidden, replaces exactly the title and price of the rows matching the
id — owner, image URL, latitude, longitude and id stay unchanged, and rows
with other ids stay whole — and the outcome is the same whichever
authenticated user issues it (no ownership check). -/
theorem claim_C7 (u : User) (id : String) (tv : Option String) (pv : JsNum Int)
    (db : List Property) :
    (updateProperty u id (some tv) (some pv) none db).status = 200 ∧
    (updateProperty u id (some tv) (some pv) none db).status ≠ 403 ∧
    List.Forall₂ (fun r r2 =>
        (r.id ≠ id → r2 = r) ∧
        (r.id = id → r2.id = r.id ∧ r2.user_id = r.user_id ∧
          r2.image_url = r.image_url ∧ r2.lat = r.lat ∧ r2.lng = r.lng ∧
          r2.title = tv ∧ r2.price = pv))
      db (updateProperty u id (some tv) (some pv) none db).db ∧
    (∀ u2, updateProperty u2 id (some tv) (some pv) none db
        = updateProperty u id (some tv) (some pv) none db) := by
  obtain ⟨hst, hdb⟩ := updateProperty_ok u id (some tv) (some pv) db
  refine ⟨hst, by rw [hst]; decide, ?_, fun u2 => rfl⟩
  rw [hdb]
  have hR : ∀ r : Property,
      (r.id ≠ id → (if r.id = id then applyTitlePrice (some tv) (some pv) r
          else r) = r) ∧
      (r.id = id →
        (if r.id = id then applyTitlePrice (some tv) (some pv) r else r).id
            = r.id ∧
          (if r.id = id then applyTitlePrice (some tv) (some pv) r
              else r).user_id = r.user_id ∧
          (if r.id = id then applyTitlePrice (some tv) (some pv) r
              else r).image_url = r.image_url ∧
          (if r.id = id then applyTitlePrice (some tv) (some pv) r
              else r).lat = r.lat ∧
          (if r.id = id then applyTitlePrice (some tv) (some pv) r
              else r).lng = r.lng ∧
          (if r.id = id then applyTitlePrice (some tv) (some pv) r
              else r).title = tv ∧
          (if r.id = id then applyTitlePrice (some tv) (some pv) r
              else r).price = pv) := by
    intro r
    by_cases hr : r.id = id
    · rw [if_pos hr]
      exact ⟨fun hne => absurd hr hne,
        fun _ => ⟨rfl, rfl, rfl, rfl, rfl, rfl, rfl⟩⟩
    · rw [if_neg hr]
      exact ⟨fun _ => rfl, fun hid => absurd hid hr⟩
  clear hst hdb
  induction db with
  | nil => exact List.Forall₂.nil
  | cons a tl ih => exact List.Forall₂.cons (hR a) ih

/-- Claim C7 witness: user `"B"` updating the row owned by `"A"` succeeds,
and the result is identical to the owner doing it. -/
theorem claim_C7_witness :
    (updateProperty ⟨"B"⟩ "1" (some (some "new")) (some (JsNum.val 9)) none
        [pEx]).status = 200 ∧
    updateProperty ⟨"B"⟩ "1" (some (some "new")) (some (JsNum.val 9)) none
        [pEx]
      = updateProperty ⟨"A"⟩ "1" (some (some "new")) (some (JsNum.val 9)) none
          [pEx] := by
  have hB := claim_C7 ⟨"B"⟩ "1" (some "new") (JsNum.val 9) [pEx]
  have hA := claim_C7 ⟨"A"⟩ "1" (some "new") (JsNum.val 9) [pEx]
  exact ⟨hB.1, hA.2.2.2 ⟨"B"⟩⟩

/-- Claim C9: an update whose id matches no row, with the external call
succeeding, answers 200 with an empty body (`data[0]` of an empty result),
never 404 — and the table is unchanged. -/
theorem claim_C9 (u : User) (id : String) (t : Option (Option String))
    (p : Option (JsNum Int)) (db : List Property)
    (h : rowsFor db id = []) :
    updateProperty u id t p none db = ⟨200, RespBody.empty, db, true⟩ := by
  have hmap := rowsFor_nil_map_id id t p db h
  simp [updateProperty, h, hmap]

/-- Claim C9 witness: updating the absent id `"9"` in table `[pEx]`. -/
theorem claim_C9_witness :
    updateProperty ⟨"A"⟩ "9" (some (some "new")) (some (JsNum.val 9)) none
        [pEx]
      = ⟨200, RespBody.empty, [pEx], true⟩ :=
  claim_C9 ⟨"A"⟩ "9" (some (some "new")) (some (JsNum.val 9)) [pEx] (by decide)

/-- Claim C3: on every guarded route, a missing header, an empty header, or
a token that does not resolve (the call throws, reports an error, or yields
no user) produces a 401 response with the handler never invoked and the
table untouched; when the token resolves, the handler runs with exactly the
resolved identity. -/
theorem claim_C3 (header : Option String)
    (getUser : Option String → AuthOutcome) (db : List Property)
    (handler : User → HResult) :
    (header = none →
      runGuarded header getUser db handler
        = ⟨401, RespBody.err "No token provided", db, false, false⟩) ∧
    (header = some "" →
      runGuarded header getUser db handler
        = ⟨401, RespBody.err "No token provided", db, false, false⟩) ∧
    (∀ h, header = some h → h ≠ "" →
      resolves (getUser (headerToken h)) = none →
      (runGuarded header getUser db handler).status = 401 ∧
      (runGuarded header getUser db handler).handlerRan = false ∧
      (runGuarded header getUser db handler).db = db ∧
      (runGuarded header getUser db handler).dbWrite = false) ∧
    (∀ h u, header = some h → h ≠ "" →
      resolves (getUser (headerToken h)) = some u →
      runGuarded header getUser db handler
        = ⟨(handler u).status, (handler u).body, (handler u).db, true,
            (handler u).dbWrite⟩) := by
  refine ⟨?_, ?_, ?_, ?_⟩
  · intro hh
    subst hh
    rfl
  · intro hh
    subst hh
    rfl
  · intro h hh hne hres
    subst hh
    have ha := authenticate_some h getUser hne
    cases hg : getUser (headerToken h) with
    | throws =>
      rw [hg] at ha
      simp [runGuarded, ha, tokenAuth]
    | ret e u? =>
      cases e with
      | true =>
        rw [hg] at ha
        simp [runGuarded, ha, tokenAuth]
      | false =>
        cases u? with
        | none =>
          rw [hg] at ha
          simp [runGuarded, ha, tokenAuth]
        | some u2 =>
          rw [hg] at hres
          simp [resolves] at hres
  · intro h u hh hne hres
    subst hh
    have ha := authenticate_some h getUser hne
    cases hg : getUser (headerToken h) with
    | throws =>
      rw [hg] at hres
      simp [resolves] at hres
    | ret e u? =>
      cases e with
      | true =>
        rw [hg] at hres
        simp [resolves] at hres
      | false =>
        cases u? with
        | none =>
          rw [hg] at hres
          simp [resolves] at hres
        | some u2 =>
          rw [hg] at hres ha
          simp only [resolves, Option.some.injEq] at hres
          subst hres
          simp [runGuarded, ha, tokenAuth]

/-- Claim C3 witness: with a resolver accepting exactly the token `"tok"`
as user `"A"`, a missing header is a 401 with untouched table, and
`"Bearer tok"` runs the delete handler as `"A"`. -/
theorem claim_C3_witness :
    runGuarded none
        (fun t => if t = some "tok" then AuthOutcome.ret false (some ⟨"A"⟩)
          else AuthOutcome.ret true none)
        [pEx] (fun usr => deleteProperty usr "1" false none [pEx])
      = ⟨401, RespBody.err "No token provided", [pEx], false, false⟩ ∧
    runGuarded (some "Bearer tok")
        (fun t => if t = some "tok" then AuthOutcome.ret false (some ⟨"A"⟩)
          else AuthOutcome.ret true none)
        [pEx] (fun usr => deleteProperty usr "1" false none [pEx])
      = ⟨200, RespBody.message "Property deleted",
          List.filter (fun r => r.id ≠ "1") [pEx], true, true⟩ := by
  refine ⟨?_, ?_⟩
  · exact (claim_C3 none
      (fun t => if t = some "tok" then AuthOutcome.ret false (some ⟨"A"⟩)
        else AuthOutcome.ret true none)
      [pEx] (fun usr => deleteProperty usr "1" false none [pEx])).1 rfl
  · exact (claim_C3 (some "Bearer tok")
      (fun t => if t = some "tok" then AuthOutcome.ret false (some ⟨"A"⟩)
        else AuthOutcome.ret true none)
      [pEx] (fun usr => deleteProperty usr "1" false none [pEx])).2.2.2
      "Bearer tok" ⟨"A"⟩ rfl (by decide) (by decide)

/-- Claim C10: the guard sends exactly the second space-separated piece of
the Authorization header to the auth service, never checking the scheme
prefix — so `"Basic tok"` is accepted whenever `"tok"` resolves — and a
header without a space yields an undefined token, hence (the auth service
resolving no user from an undefined token) a 401. -/
theorem claim_C10 (getUser : Option String → AuthOutcome) :
    (∀ h, h ≠ "" →
      authenticate (some h) getUser = tokenAuth (getUser (headerToken h))) ∧
    (∀ u, getUser (some "tok") = AuthOutcome.ret false (some u) →
      authenticate (some "Basic tok") getUser = Except.ok u) ∧
    headerToken "sometoken" = none ∧
    (resolves (getUser none) = none →
      ∃ m, authenticate (some "sometoken") getUser
        = Except.error (401, m)) := by
  refine ⟨fun h hne => authenticate_some h getUser hne, ?_, rfl, ?_⟩
  · intro u hg
    have ht : headerToken "Basic tok" = some "tok" := rfl
    have ha := authenticate_some "Basic tok" getUser (by decide)
    rw [ht, hg] at ha
    rw [ha]
    rfl
  · intro hres
    have ht : headerToken "sometoken" = none := rfl
    have ha := authenticate_some "sometoken" getUser (by decide)
    rw [ht] at ha
    cases hg : getUser none with
    | throws =>
      rw [hg] at ha
      exact ⟨"Unauthorized", by rw [ha]; rfl⟩
    | ret e u? =>
      cases e with
      | true =>
        rw [hg] at ha
        exact ⟨"Invalid token", by rw [ha]; rfl⟩
      | false =>
        cases u? with
        | none =>
          rw [hg] at ha
          exact ⟨"Invalid token", by rw [ha]; rfl⟩
        | some u2 =>
          rw [hg] at hres
          simp [resolves] at hres

/-- Claim C10 witness: with a resolver accepting exactly `"tok"` as user
`"A"`, the non-Bearer header `"Basic tok"` authenticates as `"A"`, and the
spaceless header `"sometoken"` is rejected with a 401. -/
theorem claim_C10_witness :
    authenticate (some "Basic tok")
        (fun t => if t = some "tok" then AuthOutcome.ret false (some ⟨"A"⟩)
          else AuthOutcome.ret true none)
      = Except.ok ⟨"A"⟩ ∧
    ∃ m, authenticate (some "sometoken")
        (fun t => if t = some "tok" then AuthOutcome.ret false (some ⟨"A"⟩)
          else AuthOutcome.ret true none)
      = Except.error (401, m) := by
  have h := claim_C10
    (fun t => if t = some "tok" then AuthOutcome.ret false (some ⟨"A"⟩)
      else AuthOutcome.ret true none)
  exact ⟨h.2.1 ⟨"A"⟩ rfl, h.2.2.2 rfl⟩
